import Mathlib

/-!
Verification of the chat session controller in `src/components/RagChat.tsx`.

The component keeps four pieces of React state (`messages`, `input`,
`loading`, `isStreaming`) and one operation `sendMessage` that drives a
request/response exchange against `POST /api/rag`.  We embed the session
state, the shape of an HTTP response as the component observes it, and
`sendMessage` as a function producing the sequence of session states after
each `setState` call (the fine-grained trace) together with the request it
issues, if any.

JavaScript particulars carried over faithfully:
  * the guard `!input.trim() || loading` rejects blank-after-trim input
    (empty string is falsy) and concurrent submissions;
  * `contentType?.includes(p)` is substring containment, false when the
    header is absent;
  * `res.ok` holds for status codes 200..299;
  * `data.answer || "No response received."` falls back on any falsy
    value, so an *empty string* answer also yields the fallback;
  * every `setMessages` during response handling copies the array and
    overwrites index `length - 1` only when the array is non-empty.

React 18 batches state updates between suspension points (`await`s), so the
states a render can observe are coarser than the fine-grained trace; the
function `observableStates` lists exactly those: the state after the
synchronous prologue, the state after each streamed chunk (the chunk read is
the only suspension point inside the loop), and the final state after the
completion batch (`setIsStreaming(false)`/`setMessages` together with the
`finally` block's `setLoading(false)`).
-/

namespace RagChat

/-- `sender` field of a chat message: `"user" | "bot"`. -/
inductive Sender where
  | user
  | bot
  deriving DecidableEq, Repr

/-- `interface Message { sender: "user" | "bot"; text: string }`. -/
structure Message where
  sender : Sender
  text : String
  deriving DecidableEq, Repr

/-- The four `useState` hooks of the component. -/
structure SessionState where
  messages : List Message
  input : String
  loading : Bool
  isStreaming : Bool
  deriving DecidableEq, Repr

/-- The fixed apology text installed by the `catch` block. -/
def apologyText : String := "Sorry, I encountered an error. Please try again."

/-- The fallback text of the JSON path: `data.answer || "No response received."`. -/
def fallbackText : String := "No response received."

/-- JavaScript `String.prototype.trim`: strip leading and trailing
whitespace.  Modelled over the character list (Lean's built-in
`String.trim` is byte-position based and does not reduce in the kernel). -/
def jsTrim (s : String) : String :=
  ⟨((s.data.dropWhile Char.isWhitespace).reverse.dropWhile Char.isWhitespace).reverse⟩

/-- JavaScript `String.prototype.includes`: substring containment. -/
def strIncludes (s pat : String) : Bool :=
  decide (pat.toList <:+: s.toList)

/-- `contentType?.includes(pat)`: `undefined` (absent header) is falsy. -/
def ctIncludes (ct : Option String) (pat : String) : Bool :=
  match ct with
  | none => false
  | some s => strIncludes s pat

/-- An HTTP response as the component can observe it: status code, the
`content-type` header (possibly absent), whether `res.body` yields a reader,
the body as the finite sequence of decoded text chunks the reader delivers,
and the result of `res.json()` (`none` when parsing throws, otherwise the
optional `answer` field). -/
structure HttpResponse where
  status : Nat
  contentType : Option String
  hasReader : Bool
  chunks : List String
  jsonAnswer : Option (Option String)
  deriving DecidableEq, Repr

/-- `res.ok`: status in the range 200..299. -/
def HttpResponse.ok (r : HttpResponse) : Bool :=
  decide (200 ≤ r.status ∧ r.status < 300)

/-- Outcome of `fetch`: either the promise rejects (network/transport
failure) or a response arrives. -/
inductive FetchOutcome where
  | failure
  | response (r : HttpResponse)
  deriving DecidableEq, Repr

/-- The request body `JSON.stringify({ query: userQuery })`. -/
structure RagRequest where
  query : String
  deriving DecidableEq, Repr

/-- The `setMessages` updater used on every response-handling path:
copy the array and overwrite the message at index `length - 1`, doing
nothing when the array is empty. -/
def replaceLast (msgs : List Message) (m : Message) : List Message :=
  if msgs.isEmpty then msgs else msgs.dropLast ++ [m]

/-- `data.answer || "No response received."`: a missing field and an empty
string are both falsy in JavaScript and select the fallback. -/
def answerOrFallback (a : Option String) : String :=
  match a with
  | none => fallbackText
  | some t => if t.isEmpty then fallbackText else t

/-- States produced by the streaming `while` loop, one per delivered chunk:
`accumulatedText += chunk` followed by `setMessages` overwriting the last
message with `{ sender: "bot", text: accumulatedText }`. -/
def chunkStates (s : SessionState) (acc : String) : List String → List SessionState
  | [] => []
  | c :: rest =>
    let acc2 := acc ++ c
    let s2 := { s with messages := replaceLast s.messages ⟨Sender.bot, acc2⟩ }
    s2 :: chunkStates s2 acc2 rest

/-- States produced by the `catch` block: overwrite the last message with
the apology text, then `setIsStreaming(false)`. -/
def failStates (s : SessionState) : List SessionState :=
  let s1 := { s with messages := replaceLast s.messages ⟨Sender.bot, apologyText⟩ }
  [s1, { s1 with isStreaming := false }]

/-- States produced between the resolution of `fetch` and the `finally`
block, following the source's branch order: `!res.ok` throws; a
`text/plain` content type drives the chunk loop (throwing first if no
reader is available) and clears `isStreaming` at end-of-stream; an
`application/json` content type reads the body once (a parse failure
throws) and sets the answer-or-fallback text before clearing
`isStreaming`; anything else throws `Unexpected content type`. -/
def responseStates (s : SessionState) (o : FetchOutcome) : List SessionState :=
  match o with
  | FetchOutcome.failure => failStates s
  | FetchOutcome.response r =>
    if !r.ok then failStates s
    else if ctIncludes r.contentType "text/plain" then
      if !r.hasReader then failStates s
      else
        let cs := chunkStates s "" r.chunks
        cs ++ [{ cs.getLastD s with isStreaming := false }]
    else if ctIncludes r.contentType "application/json" then
      match r.jsonAnswer with
      | none => failStates s
      | some a =>
        let s1 := { s with messages := replaceLast s.messages ⟨Sender.bot, answerOrFallback a⟩ }
        [s1, { s1 with isStreaming := false }]
    else failStates s

/-- The whole of `sendMessage`, parameterised by the fetch outcome.
Returns the request it issues (`none` when the guard rejects) and the
fine-grained trace: the session state after every `setState` call, in
program order.  An accepted submission produces, in order: the appended
user message, the cleared input, `loading := true`, `isStreaming := true`,
the appended empty bot placeholder — at which point the request is issued —
then the response-handling states, then the `finally` block's
`setLoading(false)`. -/
def sendMessage (s : SessionState) (o : FetchOutcome) :
    Option RagRequest × List SessionState :=
  if (jsTrim s.input).isEmpty || s.loading then (none, [])
  else
    let userQuery := jsTrim s.input
    let s1 := { s with messages := s.messages ++ [⟨Sender.user, userQuery⟩] }
    let s2 := { s1 with input := "" }
    let s3 := { s2 with loading := true }
    let s4 := { s3 with isStreaming := true }
    let s5 := { s4 with messages := s4.messages ++ [⟨Sender.bot, ""⟩] }
    let rs := responseStates s5 o
    (some ⟨userQuery⟩, [s1, s2, s3, s4, s5] ++ rs ++ [{ rs.getLastD s5 with loading := false }])

/-- The fine-grained trace of a call to `sendMessage`. -/
def sendTrace (s : SessionState) (o : FetchOutcome) : List SessionState :=
  (sendMessage s o).2

/-- The request issued by a call to `sendMessage`, if any. -/
def sentRequest (s : SessionState) (o : FetchOutcome) : Option RagRequest :=
  (sendMessage s o).1

/-- The session state after `sendMessage` returns. -/
def finalState (s : SessionState) (o : FetchOutcome) : SessionState :=
  (sendTrace s o).getLastD s

/-- The state reached by the synchronous prologue of an accepted
submission, i.e. the state the component is in when `fetch` is called. -/
def acceptedStart (s : SessionState) : SessionState :=
  { s with
    messages := s.messages ++ [⟨Sender.user, jsTrim s.input⟩, ⟨Sender.bot, ""⟩]
    input := ""
    loading := true
    isStreaming := true }

/-- The render-observable states strictly between the prologue batch and
the completion batch: one per streamed chunk when the streaming path runs
(the loop suspends at each `reader.read()`), none otherwise. -/
def observableMids (s5 : SessionState) (o : FetchOutcome) : List SessionState :=
  match o with
  | FetchOutcome.failure => []
  | FetchOutcome.response r =>
    if r.ok && ctIncludes r.contentType "text/plain" && r.hasReader
    then chunkStates s5 "" r.chunks
    else []

/-- The session states a render can observe, at React 18 batching
granularity: updates queued between two suspension points commit together.
For an accepted submission these are the prologue state (all five updates
before `await fetch` form one batch), one state per streamed chunk, and the
completion state (the final `setMessages`/`setIsStreaming(false)` run
synchronously with the `finally` block's `setLoading(false)`). -/
def observableStates (s : SessionState) (o : FetchOutcome) : List SessionState :=
  if (jsTrim s.input).isEmpty || s.loading then []
  else
    let s5 := acceptedStart s
    s5 :: observableMids s5 o ++
      [{ (responseStates s5 o).getLastD s5 with loading := false }]

/-! ### String concatenation helpers -/

theorem foldl_append_str (l : List String) (acc : String) :
    l.foldl (· ++ ·) acc = acc ++ l.foldl (· ++ ·) "" := by
  induction l generalizing acc with
  | nil => simp
  | cons c rest ih =>
    simp only [List.foldl_cons]
    rw [ih (acc ++ c), ih ("" ++ c)]
    simp [String.append_assoc]

theorem join_nil : String.join ([] : List String) = "" := rfl

theorem join_cons (c : String) (l : List String) :
    String.join (c :: l) = c ++ String.join l := by
  simp only [String.join, List.foldl_cons]
  rw [foldl_append_str l ("" ++ c)]
  simp

/-! ### Properties of the streaming loop -/

theorem chunkStates_length (l : List String) :
    ∀ (s : SessionState) (acc : String), (chunkStates s acc l).length = l.length := by
  induction l with
  | nil => intro s acc; rfl
  | cons c rest ih => intro s acc; simp [chunkStates, ih]

/-- The state after consuming the `(k+1)`-st chunk: only the last message
has changed, and its text is the accumulator followed by the concatenation
of the chunks consumed so far. -/
theorem chunkStates_get? (l : List String) :
    ∀ (s : SessionState) (acc : String) (k : Nat), s.messages ≠ [] → k < l.length →
      (chunkStates s acc l).get? k =
        some { s with messages :=
          s.messages.dropLast ++ [⟨Sender.bot, acc ++ String.join (l.take (k + 1))⟩] } := by
  induction l with
  | nil => intro s acc k _ hk; simp at hk
  | cons c rest ih =>
    intro s acc k hne hk
    have hE : s.messages.isEmpty = false := List.isEmpty_eq_false.mpr hne
    cases k with
    | zero =>
      simp [chunkStates, replaceLast, hE, join_cons, join_nil]
    | succ k =>
      have hne2 : (replaceLast s.messages ⟨Sender.bot, acc ++ c⟩) ≠ [] := by
        simp [replaceLast, hE]
      have hk2 : k < rest.length := by simpa using hk
      simp only [chunkStates, List.get?]
      rw [ih _ (acc ++ c) k hne2 hk2]
      simp [replaceLast, hE, List.dropLast_concat, join_cons, join_nil, String.append_assoc]

/-- Every state of the streaming loop agrees with the starting state except
in the last message, which is a bot message. -/
theorem chunkStates_mem (l : List String) :
    ∀ (s : SessionState) (acc : String) (st : SessionState), s.messages ≠ [] →
      st ∈ chunkStates s acc l →
      st.messages.dropLast = s.messages.dropLast ∧
      st.messages.length = s.messages.length ∧
      st.input = s.input ∧ st.loading = s.loading ∧ st.isStreaming = s.isStreaming ∧
      ∃ t, st.messages.getLast? = some ⟨Sender.bot, t⟩ := by
  induction l with
  | nil => intro s acc st _ h; simp [chunkStates] at h
  | cons c rest ih =>
    intro s acc st hne h
    have hE : s.messages.isEmpty = false := List.isEmpty_eq_false.mpr hne
    have hp : 0 < s.messages.length := List.length_pos.mpr hne
    have hs2 : replaceLast s.messages ⟨Sender.bot, acc ++ c⟩ =
        s.messages.dropLast ++ [⟨Sender.bot, acc ++ c⟩] := by
      simp [replaceLast, hE]
    simp only [chunkStates, List.mem_cons] at h
    rcases h with h | h
    · subst h
      refine ⟨?_, ?_, rfl, rfl, rfl, acc ++ c, ?_⟩
      · simp [hs2, List.dropLast_concat]
      · simp only [hs2]
        simp
        omega
      · simp [hs2, List.getLast?_concat]
    · have hne2 : (replaceLast s.messages ⟨Sender.bot, acc ++ c⟩ : List Message) ≠ [] := by
        simp [hs2]
      obtain ⟨h1, h2, h3, h4, h5, t, h6⟩ := ih _ (acc ++ c) st hne2 h
      refine ⟨?_, ?_, h3, h4, h5, t, h6⟩
      · rw [h1]; simp [hs2, List.dropLast_concat]
      · rw [h2]
        simp only [hs2]
        simp
        omega

/-- Every state of the `catch` block agrees with the starting state except
in the last message (a bot message) and possibly the streaming flag. -/
theorem failStates_mem (s st : SessionState) (hne : s.messages ≠ [])
    (h : st ∈ failStates s) :
    st.messages.dropLast = s.messages.dropLast ∧
    st.messages.length = s.messages.length ∧
    st.input = s.input ∧ st.loading = s.loading ∧
    ∃ t, st.messages.getLast? = some ⟨Sender.bot, t⟩ := by
  have hE : s.messages.isEmpty = false := List.isEmpty_eq_false.mpr hne
  have hp : 0 < s.messages.length := List.length_pos.mpr hne
  simp only [failStates, List.mem_cons, List.not_mem_nil, or_false] at h
  rcases h with h | h <;> subst h <;>
    refine ⟨by simp [replaceLast, hE, List.dropLast_concat],
            by simp [replaceLast, hE]; omega,
            rfl, rfl, apologyText, by simp [replaceLast, hE, List.getLast?_concat]⟩

theorem getLastD_mem {α : Type} (l : List α) (d : α) (h : l ≠ []) :
    l.getLastD d ∈ l := by
  rw [List.getLastD_eq_getLast?, List.getLast?_eq_getLast l h]
  exact List.getLast_mem h

/-- The last state of the streaming loop, when at least one chunk arrives. -/
theorem chunkStates_getLastD (s : SessionState) (acc : String) (l : List String)
    (hne : s.messages ≠ []) (hl : l ≠ []) :
    (chunkStates s acc l).getLastD s =
      { s with messages := s.messages.dropLast ++ [⟨Sender.bot, acc ++ String.join l⟩] } := by
  have hlen := chunkStates_length l s acc
  have hpos : 0 < l.length := List.length_pos.mpr hl
  have hk : l.length - 1 < l.length := Nat.sub_lt hpos one_pos
  have hget := chunkStates_get? l s acc (l.length - 1) hne hk
  have hsucc : l.length - 1 + 1 = l.length := Nat.succ_pred_eq_of_pos hpos
  rw [List.getLastD_eq_getLast?, List.getLast?_eq_get?, hlen, hget, hsucc,
    List.take_length]
  rfl

/-- The three throwing paths of response handling all run the `catch` block. -/
theorem responseStates_eq_fail (s : SessionState) (o : FetchOutcome)
    (h : o = FetchOutcome.failure ∨ ∃ r, o = FetchOutcome.response r ∧
      (r.ok = false ∨ (ctIncludes r.contentType "text/plain" = false ∧
        ctIncludes r.contentType "application/json" = false))) :
    responseStates s o = failStates s := by
  rcases h with h | ⟨r, h, hr⟩
  · subst h; rfl
  · subst h
    rcases hr with hr | ⟨hp, hj⟩
    · simp [responseStates, hr]
    · cases hok : r.ok <;> simp [responseStates, hok, hp, hj]

theorem responseStates_stream (s : SessionState) (r : HttpResponse)
    (hok : r.ok = true) (hct : ctIncludes r.contentType "text/plain" = true)
    (hrd : r.hasReader = true) :
    responseStates s (FetchOutcome.response r) =
      chunkStates s "" r.chunks ++
        [{ (chunkStates s "" r.chunks).getLastD s with isStreaming := false }] := by
  simp [responseStates, hok, hct, hrd]

theorem responseStates_json (s : SessionState) (r : HttpResponse) (a : Option String)
    (hct : ctIncludes r.contentType "text/plain" = false)
    (hctj : ctIncludes r.contentType "application/json" = true)
    (hok : r.ok = true) (hj : r.jsonAnswer = some a) :
    responseStates s (FetchOutcome.response r) =
      [{ s with messages := replaceLast s.messages ⟨Sender.bot, answerOrFallback a⟩ },
       { s with
          messages := replaceLast s.messages ⟨Sender.bot, answerOrFallback a⟩,
          isStreaming := false }] := by
  simp [responseStates, hok, hct, hctj, hj]

/-- Every state produced by response handling keeps all messages but the
last one, keeps the list length and the input and loading fields, and its
last message is a bot message. -/
theorem responseStates_mem (s : SessionState) (o : FetchOutcome) (st : SessionState)
    (hne : s.messages ≠ []) (hbot : ∃ t, s.messages.getLast? = some ⟨Sender.bot, t⟩)
    (h : st ∈ responseStates s o) :
    st.messages.dropLast = s.messages.dropLast ∧
    st.messages.length = s.messages.length ∧
    st.input = s.input ∧ st.loading = s.loading ∧
    ∃ t, st.messages.getLast? = some ⟨Sender.bot, t⟩ := by
  have hE : s.messages.isEmpty = false := List.isEmpty_eq_false.mpr hne
  have hp : 0 < s.messages.length := List.length_pos.mpr hne
  cases o with
  | failure => exact failStates_mem s st hne h
  | response r =>
    by_cases hok : r.ok = true
    · by_cases hct : ctIncludes r.contentType "text/plain" = true
      · by_cases hrd : r.hasReader = true
        · rw [responseStates_stream s r hok hct hrd] at h
          rcases List.mem_append.mp h with h | h
          · obtain ⟨h1, h2, h3, h4, _, t, h6⟩ := chunkStates_mem r.chunks s "" st hne h
            exact ⟨h1, h2, h3, h4, t, h6⟩
          · simp only [List.mem_singleton] at h
            subst h
            by_cases hchunks : r.chunks = []
            · have hcs0 : chunkStates s "" r.chunks = [] := by rw [hchunks]; rfl
              rw [hcs0]
              exact ⟨rfl, rfl, rfl, rfl, hbot⟩
            · have hcs : chunkStates s "" r.chunks ≠ [] := by
                intro hx
                have := chunkStates_length r.chunks s ""
                rw [hx] at this
                exact hchunks (List.length_eq_zero.mp this.symm)
              obtain ⟨h1, h2, h3, h4, _, t, h6⟩ :=
                chunkStates_mem r.chunks s "" _ hne (getLastD_mem _ s hcs)
              exact ⟨h1, h2, h3, h4, t, h6⟩
        · rw [Bool.not_eq_true] at hrd
          have hrs : responseStates s (FetchOutcome.response r) = failStates s := by
            simp [responseStates, hok, hct, hrd]
          rw [hrs] at h
          exact failStates_mem s st hne h
      · rw [Bool.not_eq_true] at hct
        by_cases hctj : ctIncludes r.contentType "application/json" = true
        · cases hj : r.jsonAnswer with
          | none =>
            have hrs : responseStates s (FetchOutcome.response r) = failStates s := by
              simp [responseStates, hok, hct, hctj, hj]
            rw [hrs] at h
            exact failStates_mem s st hne h
          | some a =>
            rw [responseStates_json s r a hct hctj hok hj] at h
            simp only [List.mem_cons, List.not_mem_nil, or_false] at h
            rcases h with h | h <;> subst h <;>
              refine ⟨by simp [replaceLast, hE, List.dropLast_concat],
                      by simp [replaceLast, hE]; omega,
                      rfl, rfl, answerOrFallback a,
                      by simp [replaceLast, hE, List.getLast?_concat]⟩
        · rw [Bool.not_eq_true] at hctj
          have hrs : responseStates s (FetchOutcome.response r) = failStates s := by
            simp [responseStates, hok, hct, hctj]
          rw [hrs] at h
          exact failStates_mem s st hne h
    · rw [Bool.not_eq_true] at hok
      have hrs : responseStates s (FetchOutcome.response r) = failStates s := by
        simp [responseStates, hok]
      rw [hrs] at h
      exact failStates_mem s st hne h

/-! ### The shape of a `sendMessage` call -/

theorem acceptedStart_messages_eq (s : SessionState) :
    (acceptedStart s).messages =
      (s.messages ++ [⟨Sender.user, jsTrim s.input⟩]) ++ [⟨Sender.bot, ""⟩] := by
  simp [acceptedStart]

theorem acceptedStart_ne_nil (s : SessionState) : (acceptedStart s).messages ≠ [] := by
  simp [acceptedStart]

theorem acceptedStart_getLast (s : SessionState) :
    (acceptedStart s).messages.getLast? = some ⟨Sender.bot, ""⟩ := by
  rw [acceptedStart_messages_eq, List.getLast?_concat]

/-- A blank-after-trim input or `loading = true` makes `sendMessage` a
no-op: no request, no state change. -/
theorem sendMessage_rejected (s : SessionState) (o : FetchOutcome)
    (h : (jsTrim s.input).isEmpty = true ∨ s.loading = true) :
    sendMessage s o = (none, []) := by
  rcases h with h | h <;> simp [sendMessage, h]

/-- An accepted submission: the request carries the trimmed input and the
trace is the five prologue states, the response-handling states, and the
final `setLoading(false)` state. -/
theorem sendMessage_accepted (s : SessionState) (o : FetchOutcome)
    (h1 : (jsTrim s.input).isEmpty = false) (h2 : s.loading = false) :
    sendMessage s o =
      (some ⟨jsTrim s.input⟩,
        [{ s with messages := s.messages ++ [⟨Sender.user, jsTrim s.input⟩] },
         { s with
            messages := s.messages ++ [⟨Sender.user, jsTrim s.input⟩],
            input := "" },
         { s with
            messages := s.messages ++ [⟨Sender.user, jsTrim s.input⟩],
            input := "",
            loading := true },
         { s with
            messages := s.messages ++ [⟨Sender.user, jsTrim s.input⟩],
            input := "",
            loading := true,
            isStreaming := true },
         acceptedStart s] ++
        responseStates (acceptedStart s) o ++
        [{ (responseStates (acceptedStart s) o).getLastD (acceptedStart s) with
            loading := false }]) := by
  simp [sendMessage, h1, h2, acceptedStart]

theorem sendTrace_accepted (s : SessionState) (o : FetchOutcome)
    (h1 : (jsTrim s.input).isEmpty = false) (h2 : s.loading = false) :
    sendTrace s o =
      [{ s with messages := s.messages ++ [⟨Sender.user, jsTrim s.input⟩] },
       { s with
          messages := s.messages ++ [⟨Sender.user, jsTrim s.input⟩],
          input := "" },
       { s with
          messages := s.messages ++ [⟨Sender.user, jsTrim s.input⟩],
          input := "",
          loading := true },
       { s with
          messages := s.messages ++ [⟨Sender.user, jsTrim s.input⟩],
          input := "",
          loading := true,
          isStreaming := true },
       acceptedStart s] ++
      responseStates (acceptedStart s) o ++
      [{ (responseStates (acceptedStart s) o).getLastD (acceptedStart s) with
          loading := false }] := by
  rw [sendTrace, sendMessage_accepted s o h1 h2]

theorem finalState_accepted (s : SessionState) (o : FetchOutcome)
    (h1 : (jsTrim s.input).isEmpty = false) (h2 : s.loading = false) :
    finalState s o =
      { (responseStates (acceptedStart s) o).getLastD (acceptedStart s) with
        loading := false } := by
  rw [finalState, sendTrace_accepted s o h1 h2, List.getLastD_concat]

theorem isEmpty_false_of_ne (t : String) (h : t ≠ "") : t.isEmpty = false := by
  cases hE : t.isEmpty
  · rfl
  · exact absurd ((String.isEmpty_iff t).mp hE) h

theorem responseStates_ne_nil (s : SessionState) (o : FetchOutcome) :
    responseStates s o ≠ [] := by
  cases o with
  | failure => simp [responseStates, failStates]
  | response r =>
    by_cases hok : r.ok = true
    · by_cases hct : ctIncludes r.contentType "text/plain" = true
      · by_cases hrd : r.hasReader = true
        · rw [responseStates_stream s r hok hct hrd]
          simp
        · rw [Bool.not_eq_true] at hrd
          simp [responseStates, hok, hct, hrd, failStates]
      · rw [Bool.not_eq_true] at hct
        by_cases hctj : ctIncludes r.contentType "application/json" = true
        · cases hj : r.jsonAnswer with
          | none => simp [responseStates, hok, hct, hctj, hj, failStates]
          | some a => rw [responseStates_json s r a hct hctj hok hj]; simp
        · rw [Bool.not_eq_true] at hctj
          simp [responseStates, hok, hct, hctj, failStates]
    · rw [Bool.not_eq_true] at hok
      simp [responseStates, hok, failStates]

/-- Whatever path response handling takes, its last state has the
streaming flag cleared. -/
theorem responseStates_getLastD_isStreaming (s : SessionState) (o : FetchOutcome) :
    ((responseStates s o).getLastD s).isStreaming = false := by
  cases o with
  | failure => rfl
  | response r =>
    by_cases hok : r.ok = true
    · by_cases hct : ctIncludes r.contentType "text/plain" = true
      · by_cases hrd : r.hasReader = true
        · rw [responseStates_stream s r hok hct hrd, List.getLastD_concat]
        · rw [Bool.not_eq_true] at hrd
          have : responseStates s (FetchOutcome.response r) = failStates s := by
            simp [responseStates, hok, hct, hrd]
          rw [this]; rfl
      · rw [Bool.not_eq_true] at hct
        by_cases hctj : ctIncludes r.contentType "application/json" = true
        · cases hj : r.jsonAnswer with
          | none =>
            have : responseStates s (FetchOutcome.response r) = failStates s := by
              simp [responseStates, hok, hct, hctj, hj]
            rw [this]; rfl
          | some a => rw [responseStates_json s r a hct hctj hok hj]; rfl
        · rw [Bool.not_eq_true] at hctj
          have : responseStates s (FetchOutcome.response r) = failStates s := by
            simp [responseStates, hok, hct, hctj]
          rw [this]; rfl
    · rw [Bool.not_eq_true] at hok
      have : responseStates s (FetchOutcome.response r) = failStates s := by
        simp [responseStates, hok]
      rw [this]; rfl

/-- The last response-handling state keeps the frame: earlier messages,
length, and a bot message at the end. -/
theorem responseStates_getLastD_frame (s : SessionState) (o : FetchOutcome)
    (hne : s.messages ≠ []) (hbot : ∃ t, s.messages.getLast? = some ⟨Sender.bot, t⟩) :
    ((responseStates s o).getLastD s).messages.dropLast = s.messages.dropLast ∧
    ((responseStates s o).getLastD s).messages.length = s.messages.length ∧
    ((responseStates s o).getLastD s).input = s.input ∧
    ((responseStates s o).getLastD s).loading = s.loading ∧
    ∃ t, ((responseStates s o).getLastD s).messages.getLast? = some ⟨Sender.bot, t⟩ := by
  exact responseStates_mem s o _ hne hbot
    (getLastD_mem (responseStates s o) s (responseStates_ne_nil s o))

theorem observableMids_mem (s5 : SessionState) (o : FetchOutcome) (st : SessionState)
    (hne : s5.messages ≠ []) (h : st ∈ observableMids s5 o) :
    st.messages.dropLast = s5.messages.dropLast ∧
    st.messages.length = s5.messages.length ∧
    st.input = s5.input ∧ st.loading = s5.loading ∧ st.isStreaming = s5.isStreaming ∧
    ∃ t, st.messages.getLast? = some ⟨Sender.bot, t⟩ := by
  cases o with
  | failure => simp [observableMids] at h
  | response r =>
    by_cases hcond : (r.ok && ctIncludes r.contentType "text/plain" && r.hasReader) = true
    · rw [observableMids, if_pos hcond] at h
      exact chunkStates_mem r.chunks s5 "" st hne h
    · rw [observableMids, if_neg hcond] at h
      simp at h

theorem observableStates_accepted (s : SessionState) (o : FetchOutcome)
    (h1 : (jsTrim s.input).isEmpty = false) (h2 : s.loading = false) :
    observableStates s o =
      acceptedStart s :: observableMids (acceptedStart s) o ++
        [{ (responseStates (acceptedStart s) o).getLastD (acceptedStart s) with
            loading := false }] := by
  simp [observableStates, h1, h2]

/-- From the moment the bot placeholder exists (trace index 4, the request
moment) on, every fine-grained trace state has the same messages except
possibly the last one, the same length, and a bot message at the end. -/
theorem sendTrace_get_frame (s : SessionState) (o : FetchOutcome)
    (h1 : (jsTrim s.input).isEmpty = false) (h2 : s.loading = false)
    (k : Nat) (st : SessionState) (hk : 4 ≤ k)
    (h : (sendTrace s o).get? k = some st) :
    st.messages.dropLast = s.messages ++ [⟨Sender.user, jsTrim s.input⟩] ∧
    st.messages.length = s.messages.length + 2 ∧
    ∃ t, st.messages.getLast? = some ⟨Sender.bot, t⟩ := by
  have hne := acceptedStart_ne_nil s
  have hbot : ∃ t, (acceptedStart s).messages.getLast? = some ⟨Sender.bot, t⟩ :=
    ⟨"", acceptedStart_getLast s⟩
  have hdrop : (acceptedStart s).messages.dropLast =
      s.messages ++ [⟨Sender.user, jsTrim s.input⟩] := by
    rw [acceptedStart_messages_eq, List.dropLast_concat]
  have hlen : (acceptedStart s).messages.length = s.messages.length + 2 := by
    rw [acceptedStart_messages_eq]; simp
  rw [sendTrace_accepted s o h1 h2] at h
  rcases Nat.lt_or_ge k 5 with hk5 | hk5
  · have hk4 : k = 4 := Nat.le_antisymm (Nat.lt_succ_iff.mp hk5) hk
    subst hk4
    have : st = acceptedStart s := by
      rw [List.append_assoc] at h
      rw [List.get?_append (by simp)] at h
      simp at h
      exact h.symm
    subst this
    exact ⟨hdrop, hlen, hbot⟩
  · rw [List.append_assoc] at h
    rw [List.get?_append_right (by simpa using hk5)] at h
    have hmem : st ∈ responseStates (acceptedStart s) o ++
        [{ (responseStates (acceptedStart s) o).getLastD (acceptedStart s) with
            loading := false }] := List.get?_mem h
    rcases List.mem_append.mp hmem with hmem | hmem
    · obtain ⟨a, b, _, _, c⟩ := responseStates_mem (acceptedStart s) o st hne hbot hmem
      rw [a, b]
      exact ⟨hdrop, hlen, c⟩
    · simp only [List.mem_singleton] at hmem
      subst hmem
      obtain ⟨a, b, _, _, c⟩ := responseStates_getLastD_frame (acceptedStart s) o hne hbot
      exact ⟨by rw [← hdrop]; exact a, by rw [← hlen]; exact b, c⟩

/-- Trace index `5 + k` is the `k`-th response-handling state. -/
theorem sendTrace_get_response (s : SessionState) (o : FetchOutcome)
    (h1 : (jsTrim s.input).isEmpty = false) (h2 : s.loading = false)
    (k : Nat) (hk : k < (responseStates (acceptedStart s) o).length) :
    (sendTrace s o).get? (5 + k) = (responseStates (acceptedStart s) o).get? k := by
  rw [sendTrace_accepted s o h1 h2, List.append_assoc,
    List.get?_append_right (by simp)]
  have hidx : 5 + k - ([{ s with messages := s.messages ++ [⟨Sender.user, jsTrim s.input⟩] },
      { s with messages := s.messages ++ [⟨Sender.user, jsTrim s.input⟩], input := "" },
      { s with
        messages := s.messages ++ [⟨Sender.user, jsTrim s.input⟩],
        input := "",
        loading := true },
      { s with
        messages := s.messages ++ [⟨Sender.user, jsTrim s.input⟩],
        input := "",
        loading := true,
        isStreaming := true },
      acceptedStart s] : List SessionState).length = k := by
    simp
  rw [hidx, List.get?_append hk]

/-! ### Claims -/

/-- C4: submitting blank-after-trim input, or submitting while `loading`
is true, is a no-op: no network request is issued, no state update is
performed, and the session state (message list, input buffer, loading
flag, isStreaming flag) is unchanged. -/
theorem claim4_guard_noop (s : SessionState) (o : FetchOutcome)
    (h : jsTrim s.input = "" ∨ s.loading = true) :
    sentRequest s o = none ∧ sendTrace s o = [] ∧ finalState s o = s := by
  have hdisj : (jsTrim s.input).isEmpty = true ∨ s.loading = true := by
    rcases h with h | h
    · exact Or.inl ((String.isEmpty_iff (jsTrim s.input)).mpr h)
    · exact Or.inr h
  have hsm := sendMessage_rejected s o hdisj
  refine ⟨?_, ?_, ?_⟩
  · rw [sentRequest, hsm]
  · rw [sendTrace, hsm]
  · rw [finalState, sendTrace, hsm]
    rfl

theorem claim4_witness :
    (jsTrim "   " = "" ∨ (false : Bool) = true) ∧
    (sentRequest ⟨[], "   ", false, false⟩ FetchOutcome.failure = none ∧
     sendTrace ⟨[], "   ", false, false⟩ FetchOutcome.failure = [] ∧
     finalState ⟨[], "   ", false, false⟩ FetchOutcome.failure = ⟨[], "   ", false, false⟩) :=
  ⟨Or.inl (by decide),
   claim4_guard_noop ⟨[], "   ", false, false⟩ FetchOutcome.failure (Or.inl (by decide))⟩

/-- C5: an accepted submission first appends exactly one user message
(trace index 0), then appends exactly one empty bot placeholder, and only
then issues the single request carrying the query: at the request moment
(trace index 4) the message list is the old list plus exactly those two
messages, has grown by exactly two, and ends in an empty bot message. -/
theorem claim5_accepted_appends (s : SessionState) (o : FetchOutcome)
    (h1 : jsTrim s.input ≠ "") (h2 : s.loading = false) :
    sentRequest s o = some ⟨jsTrim s.input⟩ ∧
    (sendTrace s o).get? 0 =
      some { s with messages := s.messages ++ [⟨Sender.user, jsTrim s.input⟩] } ∧
    (sendTrace s o).get? 4 = some (acceptedStart s) ∧
    (acceptedStart s).messages =
      s.messages ++ [⟨Sender.user, jsTrim s.input⟩, ⟨Sender.bot, ""⟩] ∧
    (acceptedStart s).messages.length = s.messages.length + 2 ∧
    (acceptedStart s).messages.getLast? = some ⟨Sender.bot, ""⟩ := by
  have h1' := isEmpty_false_of_ne _ h1
  refine ⟨?_, ?_, ?_, ?_, ?_, acceptedStart_getLast s⟩
  · rw [sentRequest, sendMessage_accepted s o h1' h2]
  · rw [sendTrace_accepted s o h1' h2]
    rfl
  · rw [sendTrace_accepted s o h1' h2]
    rfl
  · rw [acceptedStart_messages_eq]
    simp
  · rw [acceptedStart_messages_eq]
    simp

theorem claim5_witness :
    (jsTrim "hi" ≠ "") ∧
    (sentRequest ⟨[], "hi", false, false⟩ FetchOutcome.failure = some ⟨jsTrim "hi"⟩ ∧
     (sendTrace ⟨[], "hi", false, false⟩ FetchOutcome.failure).get? 0 =
       some { (⟨[], "hi", false, false⟩ : SessionState) with
              messages := ([] : List Message) ++ [⟨Sender.user, jsTrim "hi"⟩] } ∧
     (sendTrace ⟨[], "hi", false, false⟩ FetchOutcome.failure).get? 4 =
       some (acceptedStart ⟨[], "hi", false, false⟩) ∧
     (acceptedStart ⟨[], "hi", false, false⟩).messages =
       ([] : List Message) ++ [⟨Sender.user, jsTrim "hi"⟩, ⟨Sender.bot, ""⟩] ∧
     (acceptedStart ⟨[], "hi", false, false⟩).messages.length =
       ([] : List Message).length + 2 ∧
     (acceptedStart ⟨[], "hi", false, false⟩).messages.getLast? =
       some ⟨Sender.bot, ""⟩) :=
  ⟨by decide, claim5_accepted_appends ⟨[], "hi", false, false⟩ FetchOutcome.failure
    (by decide) rfl⟩

/-- C10 (implicit): the appended user message's text and the request's
query field are the whitespace-trimmed input, and the input buffer is
reset to the empty string before the request moment (trace indices 1
through 4 all have an empty input buffer). -/
theorem claim10_trimmed_query_and_reset (s : SessionState) (o : FetchOutcome)
    (h1 : jsTrim s.input ≠ "") (h2 : s.loading = false) :
    sentRequest s o = some ⟨jsTrim s.input⟩ ∧
    ((sendTrace s o).get? 0).map (fun st => st.messages.getLast?) =
      some (some ⟨Sender.user, jsTrim s.input⟩) ∧
    ((sendTrace s o).get? 1).map SessionState.input = some "" ∧
    ((sendTrace s o).get? 4).map SessionState.input = some "" := by
  have h1' := isEmpty_false_of_ne _ h1
  refine ⟨?_, ?_, ?_, ?_⟩
  · rw [sentRequest, sendMessage_accepted s o h1' h2]
  · rw [sendTrace_accepted s o h1' h2]
    simp [List.getLast?_concat]
  · rw [sendTrace_accepted s o h1' h2]
    rfl
  · rw [sendTrace_accepted s o h1' h2]
    rfl

theorem claim10_witness :
    (jsTrim " hi " ≠ "") ∧
    (sentRequest ⟨[], " hi ", false, false⟩ FetchOutcome.failure = some ⟨jsTrim " hi "⟩ ∧
     ((sendTrace ⟨[], " hi ", false, false⟩ FetchOutcome.failure).get? 0).map
        (fun st => st.messages.getLast?) =
       some (some ⟨Sender.user, jsTrim " hi "⟩) ∧
     ((sendTrace ⟨[], " hi ", false, false⟩ FetchOutcome.failure).get? 1).map
        SessionState.input = some "" ∧
     ((sendTrace ⟨[], " hi ", false, false⟩ FetchOutcome.failure).get? 4).map
        SessionState.input = some "") :=
  ⟨by decide, claim10_trimmed_query_and_reset ⟨[], " hi ", false, false⟩
    FetchOutcome.failure (by decide) rfl⟩

/-- C3: on every failed exchange — network/transport failure, non-success
status code, or a content type containing neither "text/plain" nor
"application/json" — the trailing bot message text is replaced with the
one fixed apology string and the isStreaming flag is cleared. -/
theorem claim3_failure_collapses (s : SessionState) (o : FetchOutcome)
    (h1 : jsTrim s.input ≠ "") (h2 : s.loading = false)
    (hfail : o = FetchOutcome.failure ∨ ∃ r, o = FetchOutcome.response r ∧
      (r.ok = false ∨ (ctIncludes r.contentType "text/plain" = false ∧
        ctIncludes r.contentType "application/json" = false))) :
    (finalState s o).messages.getLast? = some ⟨Sender.bot, apologyText⟩ ∧
    (finalState s o).isStreaming = false := by
  have h1' := isEmpty_false_of_ne _ h1
  have hne := acceptedStart_ne_nil s
  have hE : (acceptedStart s).messages.isEmpty = false := List.isEmpty_eq_false.mpr hne
  rw [finalState_accepted s o h1' h2, responseStates_eq_fail _ o hfail]
  constructor
  · simp [failStates, replaceLast, hE, List.getLast?_concat]
  · simp [failStates]

theorem claim3_witness :
    (jsTrim "hi" ≠ "") ∧
    ((finalState ⟨[], "hi", false, false⟩ FetchOutcome.failure).messages.getLast? =
       some ⟨Sender.bot, apologyText⟩ ∧
     (finalState ⟨[], "hi", false, false⟩ FetchOutcome.failure).isStreaming = false) :=
  ⟨by decide, claim3_failure_collapses ⟨[], "hi", false, false⟩ FetchOutcome.failure
    (by decide) rfl (Or.inl rfl)⟩

/-- C2 counterexample: the claim says the trailing bot message text is set
to the provided `answer` field, with the fallback used only when the field
is absent.  For the JSON body `{"answer": ""}` the field *is* provided,
yet `data.answer || "No response received."` is the fallback (the empty
string is falsy in JavaScript), so the final text is the fallback and not
the provided answer `""`. -/
theorem claim2_counterexample :
    (finalState ⟨[], "hi", false, false⟩
        (FetchOutcome.response ⟨200, some "application/json", true, [], some (some "")⟩)
      ).messages.getLast? = some ⟨Sender.bot, fallbackText⟩ ∧
    fallbackText ≠ "" := by
  constructor
  · decide
  · decide

/-- C2 (amended): for a status-200 response whose content type contains
"application/json" (and not "text/plain", which takes precedence), the
trailing bot message text is set to the `answer` field when it is provided
and non-empty, and to the fallback string when the field is absent or the
empty string (JavaScript falsiness); in particular `{"answer":"X"}` yields
"X" and `{}` yields the fallback. -/
theorem claim2_json_answer (s : SessionState) (ct : String) (hasR : Bool)
    (chunks : List String) (a : Option String)
    (h1 : jsTrim s.input ≠ "") (h2 : s.loading = false)
    (hctj : strIncludes ct "application/json" = true)
    (hctp : strIncludes ct "text/plain" = false) :
    (finalState s
        (FetchOutcome.response ⟨200, some ct, hasR, chunks, some a⟩)).messages.getLast?
      = some ⟨Sender.bot,
          match a with
          | none => fallbackText
          | some t => if t = "" then fallbackText else t⟩ := by
  have h1' := isEmpty_false_of_ne _ h1
  have hne := acceptedStart_ne_nil s
  have hE : (acceptedStart s).messages.isEmpty = false := List.isEmpty_eq_false.mpr hne
  have hok : (⟨200, some ct, hasR, chunks, some a⟩ : HttpResponse).ok = true := rfl
  rw [finalState_accepted s _ h1' h2,
    responseStates_json (acceptedStart s) _ a (by simpa [ctIncludes] using hctp)
      (by simpa [ctIncludes] using hctj) hok rfl]
  simp only [List.getLastD_concat]
  simp [replaceLast, hE, List.getLast?_concat, answerOrFallback]
  cases a with
  | none => rfl
  | some t =>
    by_cases ht : t = ""
    · subst ht
      rfl
    · show (if t.isEmpty = true then fallbackText else t) =
        (if t = "" then fallbackText else t)
      rw [isEmpty_false_of_ne t ht]
      simp [ht]

theorem claim2_witness :
    (jsTrim "hi" ≠ "") ∧
    (finalState ⟨[], "hi", false, false⟩
        (FetchOutcome.response
          ⟨200, some "application/json", true, [], some (some "X")⟩)).messages.getLast?
      = some ⟨Sender.bot, "X"⟩ :=
  ⟨by decide,
   claim2_json_answer ⟨[], "hi", false, false⟩ "application/json" true [] (some "X")
     (by decide) rfl (by decide) (by decide)⟩

/-- C1: for a streaming response (status 200, content type containing
"text/plain") whose body arrives as a finite chunk sequence, the final
trailing bot message text is the concatenation of all decoded chunks in
delivery order, and after the `(k+1)`-st chunk (trace index `5 + k`) the
trailing bot message text is the concatenation of the chunks consumed so
far. -/
theorem claim1_streaming_concatenation (s : SessionState) (ct : String)
    (chunks : List String) (jp : Option (Option String))
    (h1 : jsTrim s.input ≠ "") (h2 : s.loading = false)
    (hct : strIncludes ct "text/plain" = true) :
    (finalState s
        (FetchOutcome.response ⟨200, some ct, true, chunks, jp⟩)).messages.getLast?
      = some ⟨Sender.bot, String.join chunks⟩ ∧
    ∀ k, k < chunks.length →
      ((sendTrace s
          (FetchOutcome.response ⟨200, some ct, true, chunks, jp⟩)).get? (5 + k)).map
          (fun st => st.messages.getLast?)
        = some (some ⟨Sender.bot, String.join (chunks.take (k + 1))⟩) := by
  have h1' := isEmpty_false_of_ne _ h1
  have hne := acceptedStart_ne_nil s
  have hok : (⟨200, some ct, true, chunks, jp⟩ : HttpResponse).ok = true := rfl
  have hct' : ctIncludes (some ct) "text/plain" = true := hct
  have hrs := responseStates_stream (acceptedStart s)
    ⟨200, some ct, true, chunks, jp⟩ hok hct' rfl
  constructor
  · rw [finalState_accepted s _ h1' h2, hrs, List.getLastD_concat]
    by_cases hchunks : chunks = []
    · subst hchunks
      simpa [join_nil] using acceptedStart_getLast s
    · rw [chunkStates_getLastD _ "" chunks hne hchunks]
      simp [List.getLast?_concat]
  · intro k hk
    have hklen : k < (responseStates (acceptedStart s)
        (FetchOutcome.response ⟨200, some ct, true, chunks, jp⟩)).length := by
      rw [hrs]
      simp [chunkStates_length]
      omega
    rw [sendTrace_get_response s _ h1' h2 k hklen, hrs,
      List.get?_append (by rw [chunkStates_length]; exact hk),
      chunkStates_get? chunks (acceptedStart s) "" k hne hk]
    simp [List.getLast?_concat]

theorem claim1_witness :
    (jsTrim "hi" ≠ "") ∧ (strIncludes "text/plain" "text/plain" = true) ∧
    ((finalState ⟨[], "hi", false, false⟩
        (FetchOutcome.response
          ⟨200, some "text/plain", true, ["Hel", "lo"], none⟩)).messages.getLast?
      = some ⟨Sender.bot, String.join ["Hel", "lo"]⟩ ∧
    ∀ k, k < (["Hel", "lo"] : List String).length →
      ((sendTrace ⟨[], "hi", false, false⟩
          (FetchOutcome.response
            ⟨200, some "text/plain", true, ["Hel", "lo"], none⟩)).get? (5 + k)).map
          (fun st => st.messages.getLast?)
        = some (some ⟨Sender.bot, String.join ((["Hel", "lo"] : List String).take (k + 1))⟩)) :=
  ⟨by decide, by decide,
   claim1_streaming_concatenation ⟨[], "hi", false, false⟩ "text/plain"
     ["Hel", "lo"] none (by decide) rfl (by decide)⟩

/-- Master frame invariant for the render-observable states of an
accepted submission: every observable state carries the full history (all
messages up to and including the new user message) untouched, has exactly
one further message, and that trailing message is a bot message. -/
theorem observableStates_mem_frame (s : SessionState) (o : FetchOutcome)
    (h1 : (jsTrim s.input).isEmpty = false) (h2 : s.loading = false)
    (st : SessionState) (h : st ∈ observableStates s o) :
    st.messages.dropLast = s.messages ++ [⟨Sender.user, jsTrim s.input⟩] ∧
    st.messages.length = s.messages.length + 2 ∧
    ∃ t, st.messages.getLast? = some ⟨Sender.bot, t⟩ := by
  have hne := acceptedStart_ne_nil s
  have hbot : ∃ t, (acceptedStart s).messages.getLast? = some ⟨Sender.bot, t⟩ :=
    ⟨"", acceptedStart_getLast s⟩
  have hdrop : (acceptedStart s).messages.dropLast =
      s.messages ++ [⟨Sender.user, jsTrim s.input⟩] := by
    rw [acceptedStart_messages_eq, List.dropLast_concat]
  have hlen : (acceptedStart s).messages.length = s.messages.length + 2 := by
    rw [acceptedStart_messages_eq]; simp
  rw [observableStates_accepted s o h1 h2] at h
  rcases List.mem_cons.mp h with h | h
  · subst h
    exact ⟨hdrop, hlen, hbot⟩
  rcases List.mem_append.mp h with h | h
  · obtain ⟨a, b, _, _, _, t, c⟩ := observableMids_mem (acceptedStart s) o st hne h
    exact ⟨by rw [a, hdrop], by rw [b, hlen], t, c⟩
  · simp only [List.mem_singleton] at h
    subst h
    obtain ⟨a, b, _, _, c⟩ := responseStates_getLastD_frame (acceptedStart s) o hne hbot
    exact ⟨a.trans hdrop, b.trans hlen, c⟩

/-- C7: in every render-observable state of an exchange, at most one
in-flight bot message exists: while `isStreaming` is true the last message
is a bot message, and any later observable state can differ from it only
in that last position (all earlier messages and the list length are
unchanged). -/
theorem claim7_single_inflight (s : SessionState) (o : FetchOutcome)
    (h1 : jsTrim s.input ≠ "") (h2 : s.loading = false)
    (i j : Nat) (si sj : SessionState) (_hij : i ≤ j)
    (hi : (observableStates s o).get? i = some si)
    (hj : (observableStates s o).get? j = some sj)
    (_hstream : si.isStreaming = true) :
    (∃ t, si.messages.getLast? = some ⟨Sender.bot, t⟩) ∧
    sj.messages.dropLast = si.messages.dropLast ∧
    sj.messages.length = si.messages.length := by
  have h1' := isEmpty_false_of_ne _ h1
  obtain ⟨ai, bi, ti, ci⟩ :=
    observableStates_mem_frame s o h1' h2 si (List.get?_mem hi)
  obtain ⟨aj, bj, _, _⟩ :=
    observableStates_mem_frame s o h1' h2 sj (List.get?_mem hj)
  exact ⟨⟨ti, ci⟩, by rw [ai, aj], by rw [bi, bj]⟩

theorem claim7_witness :
    (jsTrim "hi" ≠ "") ∧ ((0 : Nat) ≤ 1) ∧
    ((observableStates ⟨[], "hi", false, false⟩ FetchOutcome.failure).get? 0 =
      some (acceptedStart ⟨[], "hi", false, false⟩)) ∧
    ((observableStates ⟨[], "hi", false, false⟩ FetchOutcome.failure).get? 1 =
      some (finalState ⟨[], "hi", false, false⟩ FetchOutcome.failure)) ∧
    ((acceptedStart ⟨[], "hi", false, false⟩).isStreaming = true) ∧
    ((∃ t, (acceptedStart ⟨[], "hi", false, false⟩).messages.getLast? =
        some ⟨Sender.bot, t⟩) ∧
     (finalState ⟨[], "hi", false, false⟩ FetchOutcome.failure).messages.dropLast =
       (acceptedStart ⟨[], "hi", false, false⟩).messages.dropLast ∧
     (finalState ⟨[], "hi", false, false⟩ FetchOutcome.failure).messages.length =
       (acceptedStart ⟨[], "hi", false, false⟩).messages.length) :=
  ⟨by decide, by decide, by decide, by decide, rfl,
   claim7_single_inflight ⟨[], "hi", false, false⟩ FetchOutcome.failure
     (by decide) rfl 0 1 (acceptedStart ⟨[], "hi", false, false⟩)
     (finalState ⟨[], "hi", false, false⟩ FetchOutcome.failure)
     (by decide) (by decide) (by decide) rfl⟩

/-- C8: during response handling the message sequence is only ever
rewritten at its last index: any two consecutive fine-grained trace states
from the request moment (index 4) on agree on every message except
possibly the last one and have the same length. -/
theorem claim8_append_only_frame (s : SessionState) (o : FetchOutcome)
    (h1 : jsTrim s.input ≠ "") (h2 : s.loading = false)
    (k : Nat) (st st' : SessionState) (hk : 4 ≤ k)
    (ha : (sendTrace s o).get? k = some st)
    (hb : (sendTrace s o).get? (k + 1) = some st') :
    st'.messages.dropLast = st.messages.dropLast ∧
    st'.messages.length = st.messages.length := by
  have h1' := isEmpty_false_of_ne _ h1
  obtain ⟨a1, b1, _⟩ := sendTrace_get_frame s o h1' h2 k st hk ha
  obtain ⟨a2, b2, _⟩ := sendTrace_get_frame s o h1' h2 (k + 1) st'
    (Nat.le_succ_of_le hk) hb
  exact ⟨by rw [a1, a2], by rw [b1, b2]⟩

theorem claim8_witness :
    (jsTrim "hi" ≠ "") ∧ ((4 : Nat) ≤ 4) ∧
    ((sendTrace ⟨[], "hi", false, false⟩ FetchOutcome.failure).get? 4 =
      some (acceptedStart ⟨[], "hi", false, false⟩)) ∧
    ((sendTrace ⟨[], "hi", false, false⟩ FetchOutcome.failure).get? 5 =
      some { acceptedStart ⟨[], "hi", false, false⟩ with
             messages := [⟨Sender.user, "hi"⟩, ⟨Sender.bot, apologyText⟩] }) ∧
    (({ acceptedStart ⟨[], "hi", false, false⟩ with
        messages := [⟨Sender.user, "hi"⟩, ⟨Sender.bot, apologyText⟩] }
          : SessionState).messages.dropLast =
       (acceptedStart ⟨[], "hi", false, false⟩).messages.dropLast ∧
     ({ acceptedStart ⟨[], "hi", false, false⟩ with
        messages := [⟨Sender.user, "hi"⟩, ⟨Sender.bot, apologyText⟩] }
          : SessionState).messages.length =
       (acceptedStart ⟨[], "hi", false, false⟩).messages.length) :=
  ⟨by decide, by decide, by decide, by decide,
   claim8_append_only_frame ⟨[], "hi", false, false⟩ FetchOutcome.failure
     (by decide) rfl 4 (acceptedStart ⟨[], "hi", false, false⟩)
     { acceptedStart ⟨[], "hi", false, false⟩ with
       messages := [⟨Sender.user, "hi"⟩, ⟨Sender.bot, apologyText⟩] }
     (by decide) (by decide) (by decide)⟩

/-- C6: `loading` is true in every render-observable state of an exchange
except the completion state, on every path; after the exchange `loading`
is false again, and — it being the sole session-state gate — a new
submission with any non-blank input is accepted (a request is issued). -/
theorem claim6_loading_gate (s : SessionState) (o : FetchOutcome)
    (h1 : jsTrim s.input ≠ "") (h2 : s.loading = false) :
    (∀ k st, (observableStates s o).get? k = some st →
      k + 1 < (observableStates s o).length → st.loading = true) ∧
    (observableStates s o).getLast? = some (finalState s o) ∧
    (finalState s o).loading = false ∧
    ∀ i : String, jsTrim i ≠ "" →
      sentRequest { finalState s o with input := i } o ≠ none := by
  have h1' := isEmpty_false_of_ne _ h1
  have hne := acceptedStart_ne_nil s
  have hobs := observableStates_accepted s o h1' h2
  have hfin := finalState_accepted s o h1' h2
  refine ⟨?_, ?_, ?_, ?_⟩
  · intro k st hget hlt
    rw [hobs] at hget hlt
    have hklt : k < (acceptedStart s :: observableMids (acceptedStart s) o).length := by
      simp only [List.length_append, List.length_cons, List.length_nil] at hlt ⊢
      omega
    rw [List.get?_append hklt] at hget
    have hmem := List.get?_mem hget
    rcases List.mem_cons.mp hmem with hmem | hmem
    · rw [hmem]
      rfl
    · obtain ⟨_, _, _, hld, _, _⟩ :=
        observableMids_mem (acceptedStart s) o st hne hmem
      rw [hld]
      rfl
  · rw [hobs, hfin, List.getLast?_concat]
  · rw [hfin]
  · intro i hi
    have hi' := isEmpty_false_of_ne _ hi
    have hld : ({ finalState s o with input := i } : SessionState).loading = false := by
      rw [hfin]
    rw [sentRequest, sendMessage_accepted { finalState s o with input := i } o hi' hld]
    simp

theorem claim6_witness :
    (jsTrim "hi" ≠ "") ∧
    ((∀ k st, (observableStates ⟨[], "hi", false, false⟩ FetchOutcome.failure).get? k =
        some st →
      k + 1 < (observableStates ⟨[], "hi", false, false⟩ FetchOutcome.failure).length →
      st.loading = true) ∧
    (observableStates ⟨[], "hi", false, false⟩ FetchOutcome.failure).getLast? =
      some (finalState ⟨[], "hi", false, false⟩ FetchOutcome.failure) ∧
    (finalState ⟨[], "hi", false, false⟩ FetchOutcome.failure).loading = false ∧
    ∀ i : String, jsTrim i ≠ "" →
      sentRequest { finalState ⟨[], "hi", false, false⟩ FetchOutcome.failure with
                    input := i } FetchOutcome.failure ≠ none) :=
  ⟨by decide,
   claim6_loading_gate ⟨[], "hi", false, false⟩ FetchOutcome.failure (by decide) rfl⟩

/-- C9 (implicit): starting from a non-streaming state (as every reachable
submission does), every fine-grained trace state with `isStreaming = true`
also has `loading = true` — `loading` is set before `isStreaming` on
acceptance — and the final trace state of any call has both `isStreaming`
and `loading` false, so `isStreaming` is cleared no later than `loading`. -/
theorem claim9_streaming_implies_loading (s : SessionState) (o : FetchOutcome)
    (hstr : s.isStreaming = false) :
    (∀ k st, (sendTrace s o).get? k = some st →
      st.isStreaming = true → st.loading = true) ∧
    ∀ st, (sendTrace s o).getLast? = some st →
      st.isStreaming = false ∧ st.loading = false := by
  by_cases hg1 : (jsTrim s.input).isEmpty = true
  · have hsm := sendMessage_rejected s o (Or.inl hg1)
    constructor
    · intro k st hget
      rw [sendTrace, hsm] at hget
      simp at hget
    · intro st hget
      rw [sendTrace, hsm] at hget
      simp at hget
  · by_cases hg2 : s.loading = true
    · have hsm := sendMessage_rejected s o (Or.inr hg2)
      constructor
      · intro k st hget
        rw [sendTrace, hsm] at hget
        simp at hget
      · intro st hget
        rw [sendTrace, hsm] at hget
        simp at hget
    · rw [Bool.not_eq_true] at hg1 hg2
      have hne := acceptedStart_ne_nil s
      have hbot : ∃ t, (acceptedStart s).messages.getLast? = some ⟨Sender.bot, t⟩ :=
        ⟨"", acceptedStart_getLast s⟩
      have htr := sendTrace_accepted s o hg1 hg2
      have hfinstr := responseStates_getLastD_isStreaming (acceptedStart s) o
      constructor
      · intro k st hget hstream
        have hmem : st ∈ sendTrace s o := List.get?_mem hget
        rw [htr] at hmem
        rcases List.mem_append.mp hmem with hmem | hmem
        · rcases List.mem_append.mp hmem with hmem | hmem
          · simp only [List.mem_cons, List.not_mem_nil, or_false] at hmem
            rcases hmem with hmem | hmem | hmem | hmem | hmem <;> subst hmem <;>
              first
                | rfl
                | simp [hstr] at hstream
          · obtain ⟨_, _, _, hld, _⟩ :=
              responseStates_mem (acceptedStart s) o st hne hbot hmem
            rw [hld]
            rfl
        · simp only [List.mem_singleton] at hmem
          subst hmem
          have hcontra : ((responseStates (acceptedStart s) o).getLastD
              (acceptedStart s)).isStreaming = true := hstream
          rw [hfinstr] at hcontra
          simp at hcontra
      · intro st hget
        rw [htr, List.getLast?_concat] at hget
        injection hget with hg
        rw [← hg]
        exact ⟨hfinstr, rfl⟩

theorem claim9_witness :
    ((false : Bool) = false) ∧
    ((∀ k st, (sendTrace ⟨[], "hi", false, false⟩ FetchOutcome.failure).get? k =
        some st → st.isStreaming = true → st.loading = true) ∧
    ∀ st, (sendTrace ⟨[], "hi", false, false⟩ FetchOutcome.failure).getLast? = some st →
      st.isStreaming = false ∧ st.loading = false) :=
  ⟨rfl, claim9_streaming_implies_loading ⟨[], "hi", false, false⟩ FetchOutcome.failure rfl⟩

end RagChat
